import Mathlib

/-!
Verification of the telegram-links backend: a shallow embedding of
`src/routes/telegramLinks.ts` (an Express router) together with the
Mongoose schema `TelegramLink` (fields `telegram_link`, `owner_name`,
automatic `createdAt` / `updatedAt` timestamps, per-field validators).

Embedding conventions:
* The document collection is a Lean list kept in `createdAt`-descending
  order (newest first); since the model clock strictly increases, this is
  exactly the sequence `find().sort(createdAt: -1)` returns, so the list
  handler reads the list directly instead of re-sorting.
* Mongo `_id` values are `Nat` assigned from a fresh counter; timestamps
  are `Nat` ticks of a logical clock.
* Request bodies carry the two string fields; the JavaScript falsiness
  test `!telegram_link` on a string field is the test for `""`.
* Mongoose `trim` is embedded as `strTrim`; it runs as a setter before
  validation, on saved documents, on update payloads, and (as in modern
  Mongoose) on query-filter values.
* `findByIdAndUpdate(..., runValidators: true)` runs the update validators
  client-side before the query executes, so validation failure is reported
  even when no document matches the id.
* The `search` query parameter is handed to Mongo `$regex` with option
  `i`.  The embedding implements the regex fragment consisting of literal
  characters and the JavaScript dot; route-level claims about searching
  are settled inside this fragment, where the embedding is exact.
* Each handler returns the HTTP status plus the JSON body it serializes,
  and the store state after the call.  The `catch`-500 branches guard
  database faults, which the embedding does not model, so they are
  unreachable here; their bodies are plain `success:false` envelopes.
-/

namespace TelegramLinks

/-- JSON values, used to state the response-envelope invariant exactly as
the route handlers serialize their replies. -/
inductive Json where
  | null : Json
  | bool (b : Bool) : Json
  | num (n : Int) : Json
  | str (s : String) : Json
  | arr (xs : List Json) : Json
  | obj (fields : List (String × Json)) : Json
deriving Inhabited

/-- One stored document of the `TelegramLink` collection. -/
structure LinkRecord where
  _id : Nat
  telegram_link : String
  owner_name : String
  createdAt : Nat
  updatedAt : Nat
deriving Repr, DecidableEq

/-- The store state: the collection (newest first), the next fresh `_id`,
and the logical clock used for timestamps. -/
structure DB where
  records : List LinkRecord
  nextId : Nat
  now : Nat
deriving Repr, DecidableEq

def DB.empty : DB := ⟨[], 0, 0⟩

/-- JavaScript `.` without the `s` flag: any character except the four
line terminators. -/
def jsDot (c : Char) : Bool :=
  c != '\n' && c != '\r' && c != '\u2028' && c != '\u2029'

/-- Strip a literal prefix off a character list, returning the remainder
when the prefix is present.  (Strings are handled through their character
lists throughout, so that every definition evaluates by kernel
reduction.) -/
def stripPre : List Char → List Char → Option (List Char)
  | [], s => some s
  | _ :: _, [] => none
  | p :: ps, c :: cs => if p = c then stripPre ps cs else none

/-- JavaScript `String.prototype.trim`, on the character list. -/
def trimChars (s : List Char) : List Char :=
  ((s.dropWhile Char.isWhitespace).reverse.dropWhile Char.isWhitespace).reverse

/-- The Mongoose `trim` setter. -/
def strTrim (s : String) : String :=
  ⟨trimChars s.data⟩

/-- The schema validator for `telegram_link`:
`/^https?:\/\/(t\.me|telegram\.me)\/.+/.test v` (anchored at the start
only; `.+` needs one non-line-terminator character after the host; the
two scheme alternatives and the two host alternatives have no common
viable prefix, so first-match is exact here). -/
def matchLinkChars (cs : List Char) : Bool :=
  match (match stripPre "https://".data cs with
         | some r => some r
         | none => stripPre "http://".data cs) with
  | none => false
  | some r =>
    match (match stripPre "t.me/".data r with
           | some rest => some rest
           | none => stripPre "telegram.me/".data r) with
    | none => false
    | some rest =>
      match rest with
      | [] => false
      | c :: _ => jsDot c

def matchesTelegramLinkRegex (v : String) : Bool :=
  matchLinkChars v.data

/-- The Mongoose validation messages produced for a candidate document,
after the `trim` setters have run; `[]` means the document validates.
`telegram_link`: required, then the regex validator.  `owner_name`:
required, then `minlength 2`, then `maxlength 100`.  Mongoose reports one
message per failing path. -/
def validationErrors (telegram_link owner_name : String) : List String :=
  (if (strTrim telegram_link).length = 0 then ["Telegram link is required"]
   else if matchesTelegramLinkRegex (strTrim telegram_link) then []
   else ["Please provide a valid Telegram link"]) ++
  (if (strTrim owner_name).length = 0 then ["Owner name is required"]
   else if (strTrim owner_name).length < 2 then
     ["Owner name must be at least 2 characters long"]
   else if (strTrim owner_name).length > 100 then
     ["Owner name cannot exceed 100 characters"]
   else [])

/-- Serialization of a stored document into a response body. -/
def LinkRecord.toJson (r : LinkRecord) : Json :=
  .obj [("_id", .num r._id), ("telegram_link", .str r.telegram_link),
        ("owner_name", .str r.owner_name), ("createdAt", .num r.createdAt),
        ("updatedAt", .num r.updatedAt)]

/-- An HTTP reply: status code plus serialized JSON body. -/
structure HttpResponse where
  status : Nat
  body : Json

/-! ### The `$regex`/`i` search filter

`GET /` passes `search` to `$or: [telegram_link: {$regex, i}, owner_name:
{$regex, i}]`.  The embedding implements the fragment of JavaScript
regexes whose patterns contain only literal characters and `.`: the
pattern must match (case-insensitively) at some position of the field. -/

/-- One pattern character against one text character: `.` matches any
non-line-terminator; any other character matches case-insensitively. -/
def patCharMatches (p c : Char) : Bool :=
  if p = '.' then jsDot c else p.toLower = c.toLower

/-- Match the whole pattern starting at the head of the text. -/
def matchHere : List Char → List Char → Bool
  | [], _ => true
  | _ :: _, [] => false
  | p :: ps, c :: cs => patCharMatches p c && matchHere ps cs

/-- Unanchored search: does the pattern match at some position? -/
def regexSearch (pat : List Char) : List Char → Bool
  | [] => matchHere pat []
  | c :: cs => matchHere pat (c :: cs) || regexSearch pat (cs)

/-- `new RegExp(pat, "i")` tested against `s`, for patterns in the
literal-plus-dot fragment. -/
def ciRegexTest (pat s : String) : Bool :=
  regexSearch pat.data s.data

/-- The `$or` across the two fields. -/
def matchesSearch (search : String) (r : LinkRecord) : Bool :=
  ciRegexTest search r.telegram_link || ciRegexTest search r.owner_name

/-- The Mongo query built by `GET /`: `{}` when `search` is falsy,
otherwise the `$or` regex filter. -/
def listQueryFilter (search : String) (rs : List LinkRecord) : List LinkRecord :=
  if search = "" then rs else rs.filter (matchesSearch search)

/-- The pagination block of the list response. -/
structure PageInfo where
  currentPage : Nat
  totalPages : Nat
  totalItems : Nat
  itemsPerPage : Nat
deriving Repr, DecidableEq

/-- `GET /` core: filter, sort `createdAt` descending (the stored order),
`skip ((page-1)*limit)`, `limit`, plus `countDocuments` of the same query.
`pageNum` and `limitNum` are the `parseInt` values of the query
parameters (defaults 1 and 10); `Math.ceil(total/limit)` on naturals with
`limitNum ≥ 1` is `(total + limitNum - 1) / limitNum`. -/
def getLinks (db : DB) (pageNum limitNum : Nat) (search : String) :
    List LinkRecord × PageInfo :=
  (((listQueryFilter search db.records).drop ((pageNum - 1) * limitNum)).take limitNum,
   ⟨pageNum,
    ((listQueryFilter search db.records).length + limitNum - 1) / limitNum,
    (listQueryFilter search db.records).length, limitNum⟩)

/-- `GET /` route: 200 with data array and pagination block. -/
def getLinksRoute (db : DB) (pageNum limitNum : Nat) (search : String) :
    HttpResponse :=
  ⟨200, .obj [("success", .bool true),
              ("data", .arr ((getLinks db pageNum limitNum search).1.map LinkRecord.toJson)),
              ("pagination",
                .obj [("currentPage", .num (getLinks db pageNum limitNum search).2.currentPage),
                      ("totalPages", .num (getLinks db pageNum limitNum search).2.totalPages),
                      ("totalItems", .num (getLinks db pageNum limitNum search).2.totalItems),
                      ("itemsPerPage", .num (getLinks db pageNum limitNum search).2.itemsPerPage)])]⟩

/-- `GET /owners` core: `distinct('owner_name')` (order unspecified;
the embedding deduplicates keeping first occurrences). -/
def getOwners (db : DB) : List String :=
  (db.records.map (fun r => r.owner_name)).dedup

/-- `GET /owners` route. -/
def getOwnersRoute (db : DB) : HttpResponse :=
  ⟨200, .obj [("success", .bool true),
              ("data", .arr ((getOwners db).map Json.str))]⟩

/-- `findById`. -/
def findById (db : DB) (i : Nat) : Option LinkRecord :=
  db.records.find? (fun r => r._id == i)

def notFoundBody : Json :=
  .obj [("success", .bool false), ("error", .str "Telegram link not found")]

/-- `GET /:id` route. -/
def getLinkRoute (db : DB) (i : Nat) : HttpResponse :=
  match findById db i with
  | none => ⟨404, notFoundBody⟩
  | some r => ⟨200, .obj [("success", .bool true), ("data", r.toJson)]⟩

def requiredBody : Json :=
  .obj [("success", .bool false),
        ("error", .str "Both telegram_link and owner_name are required")]

def duplicateBody : Json :=
  .obj [("success", .bool false), ("error", .str "Telegram link already exists")]

def validationErrorBody (details : List String) : Json :=
  .obj [("success", .bool false), ("error", .str "Validation error"),
        ("details", .arr (details.map Json.str))]

/-- `POST /` : required-fields check, then `findOne {telegram_link}`
(409 on a hit), then `new TelegramLink(...).save()`, whose validators can
reject with a `ValidationError` (400 with per-field details); on success
the saved document is returned with status 201. -/
def createLink (db : DB) (telegram_link owner_name : String) :
    HttpResponse × DB :=
  if telegram_link = "" || owner_name = "" then
    (⟨400, requiredBody⟩, db)
  else if (db.records.find? (fun r => r.telegram_link == strTrim telegram_link)).isSome then
    (⟨409, duplicateBody⟩, db)
  else
    match validationErrors telegram_link owner_name with
    | [] =>
      (⟨201, .obj [("success", .bool true),
                   ("data", (⟨db.nextId, strTrim telegram_link, strTrim owner_name,
                              db.now, db.now⟩ : LinkRecord).toJson),
                   ("message", .str "Telegram link created successfully")]⟩,
       ⟨(⟨db.nextId, strTrim telegram_link, strTrim owner_name, db.now, db.now⟩ : LinkRecord)
          :: db.records, db.nextId + 1, db.now + 1⟩)
    | errs =>
      (⟨400, validationErrorBody errs⟩, db)

/-- `PUT /:id` : required-fields check, then
`findOne {telegram_link, _id: {$ne: id}}` (409 on a hit), then
`findByIdAndUpdate(id, {telegram_link, owner_name}, {new, runValidators})`:
update validators run before the query (400 on failure), then the match is
updated in place — `updatedAt` bumped, `createdAt` kept — or `null` comes
back and the route answers 404. -/
def updateLink (db : DB) (i : Nat) (telegram_link owner_name : String) :
    HttpResponse × DB :=
  if telegram_link = "" || owner_name = "" then
    (⟨400, requiredBody⟩, db)
  else if (db.records.find?
      (fun r => r.telegram_link == strTrim telegram_link && r._id != i)).isSome then
    (⟨409, duplicateBody⟩, db)
  else
    match validationErrors telegram_link owner_name with
    | [] =>
      match findById db i with
      | none => (⟨404, notFoundBody⟩, db)
      | some r0 =>
        (⟨200, .obj [("success", .bool true),
                     ("data", (⟨r0._id, strTrim telegram_link, strTrim owner_name,
                                r0.createdAt, db.now⟩ : LinkRecord).toJson),
                     ("message", .str "Telegram link updated successfully")]⟩,
         ⟨db.records.map (fun x =>
            if x._id == i then
              (⟨r0._id, strTrim telegram_link, strTrim owner_name,
                r0.createdAt, db.now⟩ : LinkRecord)
            else x),
          db.nextId, db.now + 1⟩)
    | errs =>
      (⟨400, validationErrorBody errs⟩, db)

/-- `DELETE /:id` : `findByIdAndDelete` (`_id` is the primary key, so at
most one document carries it), 404 when nothing matched. -/
def deleteLink (db : DB) (i : Nat) : HttpResponse × DB :=
  match findById db i with
  | none => (⟨404, notFoundBody⟩, db)
  | some _ =>
    (⟨200, .obj [("success", .bool true),
                 ("message", .str "Telegram link deleted successfully")]⟩,
     ⟨db.records.filter (fun r => r._id != i), db.nextId, db.now⟩)

/-- One HTTP request against the router, with its parsed parameters. -/
inductive Req where
  | list (pageNum limitNum : Nat) (search : String) : Req
  | owners : Req
  | getOne (i : Nat) : Req
  | create (telegram_link owner_name : String) : Req
  | update (i : Nat) (telegram_link owner_name : String) : Req
  | remove (i : Nat) : Req
deriving Repr, DecidableEq

/-- Dispatch a request to its route handler. -/
def handle (db : DB) : Req → HttpResponse × DB
  | .list p l s => (getLinksRoute db p l s, db)
  | .owners => (getOwnersRoute db, db)
  | .getOne i => (getLinkRoute db i, db)
  | .create l o => createLink db l o
  | .update i l o => updateLink db i l o
  | .remove i => deleteLink db i

/-! ### Specification-side definitions

These follow the spec's words, to be compared with the definitions above:
case-insensitive *substring* containment (the spec's description of the
search filter) and the invariants the spec asserts about the store. -/

/-- Case-insensitive equality of the needle with a prefix of the text. -/
def lowerPrefixEq : List Char → List Char → Bool
  | [], _ => true
  | _ :: _, [] => false
  | a :: as, b :: bs => a.toLower = b.toLower && lowerPrefixEq as bs

def containsCIAux (needle : List Char) : List Char → Bool
  | [] => lowerPrefixEq needle []
  | c :: cs => lowerPrefixEq needle (c :: cs) || containsCIAux needle (cs)

/-- Modelled from the spec: "case-insensitive substring match" — `hay`
contains `needle` case-insensitively at some position. -/
def containsCI (needle hay : String) : Bool :=
  containsCIAux needle.data hay.data

/-- The JavaScript regex metacharacters (plus `.`); a search string free
of these is matched purely literally by `$regex`. -/
def regexMetaChars : List Char :=
  ['.', '\\', '^', '$', '*', '+', '?', '(', ')', '[', ']', '\x7b', '\x7d', '|']

def isLiteralChar (c : Char) : Bool :=
  !(regexMetaChars.contains c)

/-- The list route's sort order: `createdAt` descending. -/
def SortedByCreatedAtDesc (rs : List LinkRecord) : Prop :=
  rs.Pairwise (fun a b => b.createdAt ≤ a.createdAt)

/-- The spec's uniqueness invariant: the stored `telegram_link` values are
pairwise distinct (case-sensitive exact comparison). -/
def LinksUnique (db : DB) : Prop :=
  db.records.Pairwise (fun a b => a.telegram_link ≠ b.telegram_link)

/-- `_id` is a primary key: stored ids are pairwise distinct. -/
def IdsUnique (db : DB) : Prop :=
  db.records.Pairwise (fun a b => a._id ≠ b._id)

/-- Every stored id is below the fresh-id counter. -/
def IdsFresh (db : DB) : Prop :=
  ∀ r ∈ db.records, r._id < db.nextId

/-- Every stored creation timestamp is below the clock. -/
def TimesFresh (db : DB) : Prop :=
  ∀ r ∈ db.records, r.createdAt < db.now

/-- The store invariant maintained by every route. -/
def Inv (db : DB) : Prop :=
  IdsUnique db ∧ IdsFresh db ∧ LinksUnique db ∧
    SortedByCreatedAtDesc db.records ∧ TimesFresh db

/-- States reachable from the empty store by a sequence of requests
handled by the router. -/
inductive Reachable : DB → Prop where
  | init : Reachable DB.empty
  | step (db : DB) (req : Req) (h : Reachable db) : Reachable (handle db req).2

/-! ### The response-envelope shape -/

def isStr : Json → Bool
  | .str _ => true
  | _ => false

def isStrArr : Json → Bool
  | .arr xs => xs.all isStr
  | _ => false

/-- Modelled from the spec: every response is an object with a boolean
`success`; failures carry a string `error` and at most a `details` string
array besides; successes carry at most `data`, `message`, `pagination`
besides. -/
def envelopeOK : Json → Bool
  | .obj fields =>
    match fields.lookup "success" with
    | some (.bool true) =>
      fields.all (fun kv =>
        kv.1 == "success" || kv.1 == "data" || kv.1 == "message" ||
          kv.1 == "pagination")
    | some (.bool false) =>
      (match fields.lookup "error" with
       | some (.str _) => true
       | _ => false) &&
      fields.all (fun kv =>
        kv.1 == "success" || kv.1 == "error" || kv.1 == "details") &&
      (match fields.lookup "details" with
       | none => true
       | some d => isStrArr d)
    | _ => false
  | _ => false

/-! ### Concrete stores for witnesses and counterexamples -/

/-- A store holding one valid record. -/
def dbA : DB := ⟨[⟨1, "https://t.me/a", "ab", 0, 0⟩], 2, 1⟩

/-- A record whose `owner_name` regex-matches `x.z` without containing it
as a substring. -/
def rX : LinkRecord := ⟨1, "https://t.me/q", "xyz", 0, 0⟩

def dbX : DB := ⟨[rX], 2, 1⟩

/-- A store holding two valid records, newest first. -/
def dbB : DB :=
  ⟨[⟨2, "https://t.me/b", "cd", 1, 1⟩, ⟨1, "https://t.me/alice", "Alice", 0, 0⟩], 3, 2⟩

def mkRec (n : Nat) : LinkRecord :=
  ⟨n, "https://t.me/u" ++ toString n, "owner" ++ toString n, n, n⟩

/-- A store of 12 records, newest first. -/
def db12 : DB := ⟨((List.range 12).reverse).map mkRec, 12, 12⟩

/-! ## Helper lemmas -/

lemma eq_empty_of_length_eq_zero {s : String} (h : s.length = 0) : s = "" := by
  cases s with
  | mk data =>
    cases data with
    | nil => rfl
    | cons a tail => simp [String.length] at h

lemma length_ne_zero_of_matches {s : String}
    (h : matchesTelegramLinkRegex s = true) : ¬ s.length = 0 := by
  intro h0
  rw [eq_empty_of_length_eq_zero h0] at h
  exact absurd h (by decide)

lemma verr_owner_ok (l o : String)
    (ho1 : 2 ≤ (strTrim o).length) (ho2 : (strTrim o).length ≤ 100) :
    validationErrors l o =
      (if (strTrim l).length = 0 then ["Telegram link is required"]
       else if matchesTelegramLinkRegex (strTrim l) then []
       else ["Please provide a valid Telegram link"]) := by
  have ho0 : ¬ (strTrim o).length = 0 := by omega
  have hb2 : ¬ (strTrim o).length < 2 := by omega
  have hb100 : ¬ (strTrim o).length > 100 := by omega
  unfold validationErrors
  rw [if_neg ho0, if_neg hb2, if_neg hb100, List.append_nil]

lemma verr_link_ok (l o : String)
    (hm : matchesTelegramLinkRegex (strTrim l) = true) :
    validationErrors l o =
      (if (strTrim o).length = 0 then ["Owner name is required"]
       else if (strTrim o).length < 2 then ["Owner name must be at least 2 characters long"]
       else if (strTrim o).length > 100 then ["Owner name cannot exceed 100 characters"]
       else []) := by
  unfold validationErrors
  rw [if_neg (length_ne_zero_of_matches hm), if_pos hm, List.nil_append]

lemma matchHere_eq_lowerPrefixEq :
    ∀ (pat text : List Char), pat.all isLiteralChar = true →
      matchHere pat text = lowerPrefixEq pat text := by
  intro pat
  induction pat with
  | nil =>
    intro text h
    cases text <;> rfl
  | cons p ps ih =>
    intro text h
    rw [List.all_cons, Bool.and_eq_true] at h
    obtain ⟨hp, hps⟩ := h
    have hpd : p ≠ '.' := by
      intro he
      subst he
      exact absurd hp (by decide)
    cases text with
    | nil => rfl
    | cons c cs =>
      simp [matchHere, lowerPrefixEq, patCharMatches, hpd, ih cs hps]

lemma regexSearch_eq_containsCIAux (pat : List Char) (h : pat.all isLiteralChar = true) :
    ∀ text, regexSearch pat text = containsCIAux pat text := by
  intro text
  induction text with
  | nil => simp [regexSearch, containsCIAux, matchHere_eq_lowerPrefixEq pat [] h]
  | cons c cs ih =>
    simp [regexSearch, containsCIAux, matchHere_eq_lowerPrefixEq pat (c :: cs) h, ih]

lemma ciRegexTest_eq_containsCI (pat s : String) (h : pat.data.all isLiteralChar = true) :
    ciRegexTest pat s = containsCI pat s :=
  regexSearch_eq_containsCIAux pat.data h s.data

lemma ceilDiv_least (T s : Nat) (hs : 1 ≤ s) :
    T ≤ ((T + s - 1) / s) * s ∧ ∀ m : Nat, T ≤ m * s → (T + s - 1) / s ≤ m := by
  constructor
  · have h2 : T + s - 1 ≤ s * ((T + s - 1) / s) + (s - 1) :=
      (Nat.div_le_iff_le_mul_add_pred (by omega)).mp le_rfl
    rw [Nat.mul_comm]
    obtain ⟨k, hk⟩ : ∃ k, s * ((T + s - 1) / s) = k := ⟨_, rfl⟩
    rw [hk] at h2 ⊢
    omega
  · intro m hm
    apply (Nat.div_le_iff_le_mul_add_pred (show 0 < s by omega)).mpr
    rw [Nat.mul_comm] at hm
    obtain ⟨k, hk⟩ : ∃ k, s * m = k := ⟨_, rfl⟩
    rw [hk] at hm ⊢
    omega

lemma eq_of_mem_of_id (l : List LinkRecord)
    (h : l.Pairwise (fun a b => a._id ≠ b._id)) :
    ∀ x ∈ l, ∀ y ∈ l, x._id = y._id → x = y := by
  induction l with
  | nil =>
    intro x hx
    cases hx
  | cons a t ih =>
    intro x hx y hy hxy
    rw [List.pairwise_cons] at h
    obtain ⟨ha, ht⟩ := h
    rcases List.mem_cons.mp hx with hx2 | hx2 <;> rcases List.mem_cons.mp hy with hy2 | hy2
    · rw [hx2, hy2]
    · subst hx2
      exact absurd hxy (ha y hy2)
    · subst hy2
      exact absurd hxy.symm (ha x hx2)
    · exact ih ht x hx2 y hy2 hxy

lemma inv_createLink (db : DB) (l o : String) (h : Inv db) :
    Inv (createLink db l o).2 := by
  unfold createLink
  split
  · exact h
  split
  · exact h
  rename_i hreq hdup
  split
  · obtain ⟨hids, hfresh, hlinks, hsort, htimes⟩ := h
    have hnone : db.records.find? (fun r => r.telegram_link == strTrim l) = none :=
      Option.not_isSome_iff_eq_none.mp (by simpa using hdup)
    have hnolink : ∀ x ∈ db.records, ¬ x.telegram_link = strTrim l := by
      intro x hx
      have hfx := List.find?_eq_none.mp hnone x hx
      simpa using hfx
    refine ⟨?_, ?_, ?_, ?_, ?_⟩
    · exact List.Pairwise.cons
        (fun b hb => (Nat.ne_of_lt (hfresh b hb)).symm) hids
    · intro x hx
      rcases List.mem_cons.mp hx with hx | hx
      · rw [hx]
        exact Nat.lt_succ_self _
      · exact Nat.lt_trans (hfresh x hx) (Nat.lt_succ_self _)
    · exact List.Pairwise.cons
        (fun b hb he => hnolink b hb he.symm) hlinks
    · exact List.Pairwise.cons
        (fun b hb => Nat.le_of_lt (htimes b hb)) hsort
    · intro x hx
      rcases List.mem_cons.mp hx with hx | hx
      · rw [hx]
        exact Nat.lt_succ_self _
      · exact Nat.lt_trans (htimes x hx) (Nat.lt_succ_self _)
  · exact h

lemma inv_updateLink (db : DB) (i : Nat) (l o : String) (h : Inv db) :
    Inv (updateLink db i l o).2 := by
  unfold updateLink
  split
  · exact h
  split
  · exact h
  rename_i hreq hdup
  split
  case _ hv =>
    split
    · exact h
    case _ r0 hr0 =>
      obtain ⟨hids, hfresh, hlinks, hsort, htimes⟩ := h
      have hr0mem : r0 ∈ db.records := List.mem_of_find?_eq_some hr0
      have hr0id : r0._id = i := by simpa using List.find?_some hr0
      have hnone : db.records.find?
          (fun r => r.telegram_link == strTrim l && r._id != i) = none :=
        Option.not_isSome_iff_eq_none.mp (by simpa using hdup)
      have hno : ∀ x ∈ db.records, x.telegram_link = strTrim l → x._id = i := by
        intro x hx hxl
        have hfx := List.find?_eq_none.mp hnone x hx
        simp [hxl] at hfx
        exact hfx
      have hidmap : ∀ x : LinkRecord,
          (if x._id == i then
            (⟨r0._id, strTrim l, strTrim o, r0.createdAt, db.now⟩ : LinkRecord)
          else x)._id = x._id := by
        intro x
        by_cases hx : x._id = i
        · simp [hx, hr0id]
        · simp [hx]
      have hcrmap : ∀ x ∈ db.records,
          (if x._id == i then
            (⟨r0._id, strTrim l, strTrim o, r0.createdAt, db.now⟩ : LinkRecord)
          else x).createdAt = x.createdAt := by
        intro x hx
        by_cases hxi : x._id = i
        · have hxr0 : x = r0 :=
            eq_of_mem_of_id db.records hids x hx r0 hr0mem (by rw [hxi, hr0id])
          simp [hxi]
          rw [hxr0]
        · simp [hxi]
      refine ⟨?_, ?_, ?_, ?_, ?_⟩
      · refine List.pairwise_map.mpr (hids.imp ?_)
        intro a b hab
        rw [hidmap a, hidmap b]
        exact hab
      · intro y hy
        obtain ⟨x, hx, rfl⟩ := List.mem_map.mp hy
        rw [hidmap x]
        exact hfresh x hx
      · refine List.pairwise_map.mpr ?_
        refine (hlinks.and hids).imp_of_mem ?_
        intro a b ha hb hab
        obtain ⟨habl, habi⟩ := hab
        by_cases hai : a._id = i <;> by_cases hbi : b._id = i
        · exact absurd (hai.trans hbi.symm) habi
        · simp [hai, hbi]
          intro he
          exact hbi (hno b hb he.symm)
        · simp [hai, hbi]
          intro he
          exact hai (hno a ha he)
        · simp [hai, hbi]
          exact habl
      · refine List.pairwise_map.mpr ?_
        refine hsort.imp_of_mem ?_
        intro a b ha hb hab
        rw [hcrmap a ha, hcrmap b hb]
        exact hab
      · intro y hy
        obtain ⟨x, hx, rfl⟩ := List.mem_map.mp hy
        rw [hcrmap x hx]
        exact Nat.lt_trans (htimes x hx) (Nat.lt_succ_self _)
  case _ errs hv => exact h

lemma inv_deleteLink (db : DB) (i : Nat) (h : Inv db) :
    Inv (deleteLink db i).2 := by
  unfold deleteLink
  split
  · exact h
  · obtain ⟨hids, hfresh, hlinks, hsort, htimes⟩ := h
    have hsub : (db.records.filter (fun r => r._id != i)).Sublist db.records :=
      List.filter_sublist _
    refine ⟨List.Pairwise.sublist hsub hids, ?_, List.Pairwise.sublist hsub hlinks,
      List.Pairwise.sublist hsub hsort, ?_⟩
    · intro x hx
      exact hfresh x (List.mem_of_mem_filter hx)
    · intro x hx
      exact htimes x (List.mem_of_mem_filter hx)

lemma inv_handle (db : DB) (req : Req) (h : Inv db) : Inv (handle db req).2 := by
  cases req with
  | list p l s => exact h
  | owners => exact h
  | getOne i => exact h
  | create l o => exact inv_createLink db l o h
  | update i l o => exact inv_updateLink db i l o h
  | remove i => exact inv_deleteLink db i h

lemma inv_reachable {db : DB} (h : Reachable db) : Inv db := by
  induction h with
  | init =>
    refine ⟨List.Pairwise.nil, ?_, List.Pairwise.nil, List.Pairwise.nil, ?_⟩ <;>
      intro x hx <;> cases hx
  | step db req hr ih => exact inv_handle db req ih

lemma all_isStr_map (xs : List String) : (xs.map Json.str).all isStr = true := by
  induction xs with
  | nil => rfl
  | cons a t ih => simp [List.map_cons, List.all_cons, isStr, ih]

lemma envelopeOK_validationErrorBody (ds : List String) :
    envelopeOK (validationErrorBody ds) = true := by
  unfold validationErrorBody envelopeOK
  simp [List.lookup, isStrArr, all_isStr_map, isStr]

/-! ## Claim theorems -/

/-- C1, counterexample: the PUT handler checks for a duplicate link before
checking that the id exists, so updating an absent id is not always 404:
in `dbA` no record has id 2, yet `PUT /2` carrying the link stored by
record 1 answers 409. -/
theorem put_absent_not_404_cex :
    (∀ r ∈ dbA.records, r._id ≠ 2) ∧
      (updateLink dbA 2 "https://t.me/a" "ab").1.status = 409 ∧
      ¬ (updateLink dbA 2 "https://t.me/a" "ab").1.status = 404 := by
  refine ⟨by decide, rfl, by decide⟩

/-- C1, amended: `update` on an id absent from the store, with both fields
present, yields 404 and leaves the store unchanged, provided no record
already stores the supplied (trimmed) link — else the duplicate check
answers 409 first — and the fields pass schema validation — else 400 —
since both checks run before the existence check. -/
theorem put_absent_404 (db : DB) (i : Nat) (l o : String)
    (hl : l ≠ "") (ho : o ≠ "")
    (hnodup : ∀ r ∈ db.records, r.telegram_link ≠ strTrim l)
    (hvalid : validationErrors l o = [])
    (habsent : ∀ r ∈ db.records, r._id ≠ i) :
    updateLink db i l o = (⟨404, notFoundBody⟩, db) := by
  have hfind : db.records.find? (fun x => x.telegram_link == strTrim l && x._id != i) = none :=
    List.find?_eq_none.mpr (fun x hx => by simp [hnodup x hx])
  have hbyid : db.records.find? (fun r => r._id == i) = none :=
    List.find?_eq_none.mpr (fun x hx => by simp [habsent x hx])
  unfold updateLink findById
  rw [if_neg (by simp [hl, ho]), hfind, hvalid, hbyid]
  rfl

/-- Witness for C1 at a concrete input: updating the absent id 7 of `dbA`
with fresh valid fields yields 404 and leaves the store unchanged. -/
theorem put_absent_404_witness :
    (("https://t.me/b" : String) ≠ "" ∧ ("ab" : String) ≠ "" ∧
      (∀ r ∈ dbA.records, r.telegram_link ≠ strTrim "https://t.me/b") ∧
      validationErrors "https://t.me/b" "ab" = [] ∧
      (∀ r ∈ dbA.records, r._id ≠ 7)) ∧
      updateLink dbA 7 "https://t.me/b" "ab" = (⟨404, notFoundBody⟩, dbA) :=
  ⟨⟨by decide, by decide, by decide, by decide, by decide⟩,
    put_absent_404 dbA 7 "https://t.me/b" "ab" (by decide) (by decide) (by decide)
      (by decide) (by decide)⟩

/-- C2: after any sequence of requests handled by the router, starting from
the empty store, the stored `telegram_link` values are pairwise distinct
(case-sensitive exact comparison at check time). -/
theorem stored_links_unique (db : DB) (h : Reachable db) : LinksUnique db :=
  (inv_reachable h).2.2.1

/-- Witness for C2: the store reached by two create requests has pairwise
distinct links. -/
theorem stored_links_unique_witness :
    LinksUnique (handle (handle DB.empty (Req.create "https://t.me/a" "ab")).2
      (Req.create "https://t.me/b" "cd")).2 :=
  stored_links_unique _
    (Reachable.step _ _ (Reachable.step _ _ Reachable.init))

/-- C3: a create call whose `telegram_link` equals a stored record's link
exactly (stored links are fixed points of the trim setter) answers 409 and
leaves the store unchanged. -/
theorem create_duplicate_409 (db : DB) (r : LinkRecord) (o : String)
    (hmem : r ∈ db.records) (htr : strTrim r.telegram_link = r.telegram_link)
    (hl : r.telegram_link ≠ "") (ho : o ≠ "") :
    (createLink db r.telegram_link o).1.status = 409 ∧
      (createLink db r.telegram_link o).2 = db := by
  have hfind : (db.records.find? (fun x => x.telegram_link == strTrim r.telegram_link)).isSome = true :=
    List.find?_isSome.mpr ⟨r, hmem, by simp [htr]⟩
  constructor <;> simp [createLink, hl, ho, hfind]

/-- Witness for C3: re-creating the link stored in `dbA` answers 409 and
inserts nothing. -/
theorem create_duplicate_409_witness :
    ((⟨1, "https://t.me/a", "ab", 0, 0⟩ : LinkRecord) ∈ dbA.records ∧
      strTrim "https://t.me/a" = "https://t.me/a" ∧
      ("https://t.me/a" : String) ≠ "" ∧ ("cd" : String) ≠ "") ∧
      ((createLink dbA "https://t.me/a" "cd").1.status = 409 ∧
        (createLink dbA "https://t.me/a" "cd").2 = dbA) :=
  ⟨⟨by decide, by decide, by decide, by decide⟩,
    create_duplicate_409 dbA ⟨1, "https://t.me/a", "ab", 0, 0⟩ "cd" (by decide) (by decide)
      (by decide) (by decide)⟩

/-- C4, counterexample: the search string is passed to `$regex`, so it is a
regular expression, not a literal substring: searching `x.z` returns the
record with owner `xyz`, although neither of its fields contains the
substring `x.z`. -/
theorem list_search_substring_cex :
    (getLinks dbX 1 10 "x.z").1 = [rX] ∧
      containsCI "x.z" rX.telegram_link = false ∧
      containsCI "x.z" rX.owner_name = false := by
  exact ⟨rfl, by decide, by decide⟩

/-- C4, amended: for search strings free of regex metacharacters (the dot
included) the list filter keeps exactly the records whose `telegram_link`
or `owner_name` case-insensitively contains the search string, and an
empty search keeps all records; the page is cut from that filtered list. -/
theorem list_search_substring (db : DB) (p s : Nat) (search : String)
    (hlit : search.data.all isLiteralChar = true) :
    listQueryFilter search db.records =
        (if search = "" then db.records
         else db.records.filter (fun r =>
           containsCI search r.telegram_link || containsCI search r.owner_name)) ∧
      (getLinks db p s search).1 =
        ((if search = "" then db.records
          else db.records.filter (fun r =>
            containsCI search r.telegram_link || containsCI search r.owner_name)).drop
              ((p - 1) * s)).take s := by
  have hq : listQueryFilter search db.records =
      (if search = "" then db.records
       else db.records.filter (fun r =>
         containsCI search r.telegram_link || containsCI search r.owner_name)) := by
    unfold listQueryFilter
    by_cases hse : search = ""
    · rw [if_pos hse, if_pos hse]
    · rw [if_neg hse, if_neg hse]
      apply List.filter_congr
      intro x hx
      unfold matchesSearch
      rw [ciRegexTest_eq_containsCI _ _ hlit, ciRegexTest_eq_containsCI _ _ hlit]
  refine ⟨hq, ?_⟩
  unfold getLinks
  rw [hq]

/-- Witness for C4 at the literal search string `alice` over `dbB`. -/
theorem list_search_substring_witness :
    ("alice".data.all isLiteralChar = true) ∧
      (listQueryFilter "alice" dbB.records =
          (if ("alice" : String) = "" then dbB.records
           else dbB.records.filter (fun r =>
             containsCI "alice" r.telegram_link || containsCI "alice" r.owner_name)) ∧
        (getLinks dbB 1 10 "alice").1 =
          ((if ("alice" : String) = "" then dbB.records
            else dbB.records.filter (fun r =>
              containsCI "alice" r.telegram_link || containsCI "alice" r.owner_name)).drop
                ((1 - 1) * 10)).take 10) ∧
      (getLinks dbB 1 10 "alice").1 = [⟨1, "https://t.me/alice", "Alice", 0, 0⟩] :=
  ⟨by decide, list_search_substring dbB 1 10 "alice" (by decide), rfl⟩

/-- C5: the list route drops `(p-1)*s` matched records, returns at most `s`
of them keeping the `createdAt`-descending order, and reports
`currentPage = p`, `totalItems` = the pre-pagination match count,
`itemsPerPage = s`, and `totalPages` = the least `n` with
`totalItems ≤ n * s`, which is `ceil(totalItems / s)`. -/
theorem list_pagination (db : DB) (p s : Nat) (search : String)
    (hp : 1 ≤ p) (hs : 1 ≤ s) (hsorted : SortedByCreatedAtDesc db.records) :
    (getLinks db p s search).1 =
        ((listQueryFilter search db.records).drop ((p - 1) * s)).take s ∧
      (getLinks db p s search).1.length ≤ s ∧
      SortedByCreatedAtDesc (getLinks db p s search).1 ∧
      (getLinks db p s search).2.currentPage = p ∧
      (getLinks db p s search).2.totalItems = (listQueryFilter search db.records).length ∧
      (getLinks db p s search).2.itemsPerPage = s ∧
      (listQueryFilter search db.records).length ≤
        (getLinks db p s search).2.totalPages * s ∧
      (∀ m : Nat, (listQueryFilter search db.records).length ≤ m * s →
        (getLinks db p s search).2.totalPages ≤ m) := by
  refine ⟨rfl, ?_, ?_, rfl, rfl, rfl, (ceilDiv_least _ s hs).1, (ceilDiv_least _ s hs).2⟩
  · show (((listQueryFilter search db.records).drop ((p - 1) * s)).take s).length ≤ s
    rw [List.length_take]
    exact min_le_left _ _
  · show SortedByCreatedAtDesc
      (((listQueryFilter search db.records).drop ((p - 1) * s)).take s)
    have hsub : (((listQueryFilter search db.records).drop ((p - 1) * s)).take s).Sublist
        db.records := by
      refine List.Sublist.trans (List.take_sublist _ _)
        (List.Sublist.trans (List.drop_sublist _ _) ?_)
      unfold listQueryFilter
      by_cases hse : search = ""
      · rw [if_pos hse]
      · rw [if_neg hse]
        exact List.filter_sublist _
    exact List.Pairwise.sublist hsub hsorted

/-- Witness for C5: page 2 of size 5 over the 12-record store returns 5
records, `totalPages` 3 and `totalItems` 12. -/
theorem list_pagination_witness :
    ((1 : Nat) ≤ 2 ∧ (1 : Nat) ≤ 5 ∧ SortedByCreatedAtDesc db12.records) ∧
      ((getLinks db12 2 5 "").1 =
          ((listQueryFilter "" db12.records).drop ((2 - 1) * 5)).take 5 ∧
        (getLinks db12 2 5 "").1.length ≤ 5 ∧
        SortedByCreatedAtDesc (getLinks db12 2 5 "").1 ∧
        (getLinks db12 2 5 "").2.currentPage = 2 ∧
        (getLinks db12 2 5 "").2.totalItems = (listQueryFilter "" db12.records).length ∧
        (getLinks db12 2 5 "").2.itemsPerPage = 5 ∧
        (listQueryFilter "" db12.records).length ≤ (getLinks db12 2 5 "").2.totalPages * 5 ∧
        (∀ m : Nat, (listQueryFilter "" db12.records).length ≤ m * 5 →
          (getLinks db12 2 5 "").2.totalPages ≤ m)) ∧
      ((getLinks db12 2 5 "").1.length = 5 ∧
        (getLinks db12 2 5 "").2.totalPages = 3 ∧
        (getLinks db12 2 5 "").2.totalItems = 12) :=
  ⟨⟨by decide, by decide, by unfold SortedByCreatedAtDesc; decide⟩,
    list_pagination db12 2 5 "" (by decide) (by decide)
      (by unfold SortedByCreatedAtDesc; decide),
    ⟨rfl, rfl, rfl⟩⟩

/-- C6, counterexample: the trim setter runs before the validator, so a
link with a leading space is accepted although the raw value does not
match the regex. -/
theorem link_accepted_iff_raw_matches_cex :
    matchesTelegramLinkRegex " https://t.me/abc" = false ∧
      (createLink DB.empty " https://t.me/abc" "ab").1.status = 201 := by
  exact ⟨by decide, rfl⟩

/-- C6, amended: with a valid owner name and no duplicate in the store (and,
for the update half, an existing id), `create` answers 201 — and `update`
answers 200 — exactly when the link is non-empty and its trimmed value
matches `^https?://(t.me|telegram.me)/.+`. -/
theorem link_accepted_iff_trimmed_matches (db : DB) (i : Nat) (l o : String)
    (ho1 : 2 ≤ (strTrim o).length) (ho2 : (strTrim o).length ≤ 100) (ho : o ≠ "")
    (hnodup : ∀ r ∈ db.records, r.telegram_link ≠ strTrim l)
    (hex : ∃ r ∈ db.records, r._id = i) :
    ((createLink db l o).1.status = 201 ↔
        (l ≠ "" ∧ matchesTelegramLinkRegex (strTrim l) = true)) ∧
      ((updateLink db i l o).1.status = 200 ↔
        (l ≠ "" ∧ matchesTelegramLinkRegex (strTrim l) = true)) := by
  have hbyid : ¬ db.records.find? (fun r => r._id == i) = none := by
    rw [List.find?_eq_none]
    push_neg
    obtain ⟨r, hr, hri⟩ := hex
    exact ⟨r, hr, by simp [hri]⟩
  constructor
  · by_cases hl : l = ""
    · subst hl
      simp [createLink]
    · have hfind : db.records.find? (fun x => x.telegram_link == strTrim l) = none :=
        List.find?_eq_none.mpr (fun x hx => by simp [hnodup x hx])
      unfold createLink
      rw [if_neg (by simp [hl, ho]), hfind, verr_owner_ok l o ho1 ho2]
      by_cases hm : matchesTelegramLinkRegex (strTrim l) = true
      · rw [if_neg (length_ne_zero_of_matches hm), if_pos hm]
        simp [hl, hm]
      · by_cases hlen : (strTrim l).length = 0
        · rw [if_pos hlen]
          simp [hl, hm]
        · rw [if_neg hlen, if_neg hm]
          simp [hl, hm]
  · by_cases hl : l = ""
    · subst hl
      simp [updateLink]
    · have hfind : db.records.find?
          (fun x => x.telegram_link == strTrim l && x._id != i) = none :=
        List.find?_eq_none.mpr (fun x hx => by simp [hnodup x hx])
      unfold updateLink
      rw [if_neg (by simp [hl, ho]), hfind, verr_owner_ok l o ho1 ho2]
      by_cases hm : matchesTelegramLinkRegex (strTrim l) = true
      · rw [if_neg (length_ne_zero_of_matches hm), if_pos hm]
        unfold findById
        cases hfb : db.records.find? (fun r => r._id == i) with
        | none => exact absurd hfb hbyid
        | some r0 => simp [hl, hm]
      · by_cases hlen : (strTrim l).length = 0
        · rw [if_pos hlen]
          simp [hl, hm]
        · rw [if_neg hlen, if_neg hm]
          simp [hl, hm]

/-- Witness for C6: creating and updating with `https://t.me/abc` over
`dbA`, and the claim's own examples — `https://t.me/abc` is accepted,
`ftp://t.me/abc` is rejected with 400. -/
theorem link_accepted_iff_trimmed_matches_witness :
    (2 ≤ (strTrim "ab").length ∧ (strTrim "ab").length ≤ 100 ∧ ("ab" : String) ≠ "" ∧
      (∀ r ∈ dbA.records, r.telegram_link ≠ strTrim "https://t.me/abc") ∧
      (∃ r ∈ dbA.records, r._id = 1)) ∧
      (((createLink dbA "https://t.me/abc" "ab").1.status = 201 ↔
          (("https://t.me/abc" : String) ≠ "" ∧
            matchesTelegramLinkRegex (strTrim "https://t.me/abc") = true)) ∧
        ((updateLink dbA 1 "https://t.me/abc" "ab").1.status = 200 ↔
          (("https://t.me/abc" : String) ≠ "" ∧
            matchesTelegramLinkRegex (strTrim "https://t.me/abc") = true))) ∧
      (createLink DB.empty "ftp://t.me/abc" "ab").1.status = 400 :=
  ⟨⟨by decide, by decide, by decide, by decide, by decide⟩,
    link_accepted_iff_trimmed_matches dbA 1 "https://t.me/abc" "ab" (by decide) (by decide)
      (by decide) (by decide) (by decide),
    by decide⟩

/-- C7: with a valid link and no duplicate in the store (and, for the
update half, an existing id), `create` answers 201 — and `update` answers
200 — exactly when the trimmed owner name has length between 2 and 100. -/
theorem owner_accepted_iff_trimmed_length (db : DB) (i : Nat) (l o : String)
    (hm : matchesTelegramLinkRegex (strTrim l) = true)
    (hnodup : ∀ r ∈ db.records, r.telegram_link ≠ strTrim l)
    (hex : ∃ r ∈ db.records, r._id = i) :
    ((createLink db l o).1.status = 201 ↔
        (2 ≤ (strTrim o).length ∧ (strTrim o).length ≤ 100)) ∧
      ((updateLink db i l o).1.status = 200 ↔
        (2 ≤ (strTrim o).length ∧ (strTrim o).length ≤ 100)) := by
  have hl : l ≠ "" := by
    intro h
    subst h
    exact absurd hm (by decide)
  have hbyid : ¬ db.records.find? (fun r => r._id == i) = none := by
    rw [List.find?_eq_none]
    push_neg
    obtain ⟨r, hr, hri⟩ := hex
    exact ⟨r, hr, by simp [hri]⟩
  constructor
  · by_cases ho : o = ""
    · subst ho
      simp [createLink, hl, show (strTrim "").length = 0 from rfl]
    · have hfind : db.records.find? (fun x => x.telegram_link == strTrim l) = none :=
        List.find?_eq_none.mpr (fun x hx => by simp [hnodup x hx])
      unfold createLink
      rw [if_neg (by simp [hl, ho]), hfind, verr_link_ok l o hm]
      by_cases h0 : (strTrim o).length = 0
      · rw [if_pos h0]
        simp
        omega
      · rw [if_neg h0]
        by_cases h2 : (strTrim o).length < 2
        · rw [if_pos h2]
          simp
          omega
        · rw [if_neg h2]
          by_cases h100 : (strTrim o).length > 100
          · rw [if_pos h100]
            simp
            omega
          · rw [if_neg h100]
            simp
            omega
  · by_cases ho : o = ""
    · subst ho
      simp [updateLink, hl, show (strTrim "").length = 0 from rfl]
    · have hfind : db.records.find?
          (fun x => x.telegram_link == strTrim l && x._id != i) = none :=
        List.find?_eq_none.mpr (fun x hx => by simp [hnodup x hx])
      unfold updateLink
      rw [if_neg (by simp [hl, ho]), hfind, verr_link_ok l o hm]
      by_cases h0 : (strTrim o).length = 0
      · rw [if_pos h0]
        simp
        omega
      · rw [if_neg h0]
        by_cases h2 : (strTrim o).length < 2
        · rw [if_pos h2]
          simp
          omega
        · rw [if_neg h2]
          by_cases h100 : (strTrim o).length > 100
          · rw [if_pos h100]
            simp
            omega
          · rw [if_neg h100]
            unfold findById
            cases hfb : db.records.find? (fun r => r._id == i) with
            | none => exact absurd hfb hbyid
            | some r0 =>
              simp
              omega

/-- Witness for C7: the boundary examples — an owner name of trimmed
length 2 is accepted, length 1 is rejected with 400. -/
theorem owner_accepted_iff_trimmed_length_witness :
    (matchesTelegramLinkRegex (strTrim "https://t.me/abc") = true ∧
      (∀ r ∈ dbA.records, r.telegram_link ≠ strTrim "https://t.me/abc") ∧
      (∃ r ∈ dbA.records, r._id = 1)) ∧
      (((createLink dbA "https://t.me/abc" "ab").1.status = 201 ↔
          (2 ≤ (strTrim "ab").length ∧ (strTrim "ab").length ≤ 100)) ∧
        ((updateLink dbA 1 "https://t.me/abc" "ab").1.status = 200 ↔
          (2 ≤ (strTrim "ab").length ∧ (strTrim "ab").length ≤ 100))) ∧
      (createLink dbA "https://t.me/abc" "a").1.status = 400 ∧
      (createLink dbA "https://t.me/abc" "ab").1.status = 201 :=
  ⟨⟨by decide, by decide, by decide⟩,
    owner_accepted_iff_trimmed_length dbA 1 "https://t.me/abc" "ab" (by decide) (by decide)
      (by decide),
    by decide, by decide⟩

/-- C8: every response of every route is a JSON object with a boolean
`success` field; failures carry a string `error` and at most a `details`
string array besides; successes carry at most `data`, `message` and
`pagination` besides. -/
theorem response_envelope (db : DB) (req : Req) :
    envelopeOK (handle db req).1.body = true := by
  cases req with
  | list p l s => rfl
  | owners => rfl
  | getOne i =>
    show envelopeOK (getLinkRoute db i).body = true
    unfold getLinkRoute
    cases findById db i <;> rfl
  | create l o =>
    show envelopeOK (createLink db l o).1.body = true
    unfold createLink
    split
    · rfl
    split
    · rfl
    split
    · rfl
    · exact envelopeOK_validationErrorBody _
  | update i l o =>
    show envelopeOK (updateLink db i l o).1.body = true
    unfold updateLink
    split
    · rfl
    split
    · rfl
    split
    · split <;> rfl
    · exact envelopeOK_validationErrorBody _
  | remove i =>
    show envelopeOK (deleteLink db i).1.body = true
    unfold deleteLink
    split <;> rfl

/-- C9: when either body field is the empty string, POST and PUT answer the
fixed 400 required-fields response — `success:false` with only the `error`
string, no `details` — independently of the store, and the store is
unchanged. -/
theorem required_fields_400 (db : DB) (i : Nat) (l o : String) (h : l = "" ∨ o = "") :
    createLink db l o = (⟨400, requiredBody⟩, db) ∧
      updateLink db i l o = (⟨400, requiredBody⟩, db) := by
  rcases h with h | h <;> subst h <;> constructor <;> simp [createLink, updateLink]

/-- Witness for C9 with an empty link over `dbA`. -/
theorem required_fields_400_witness :
    ((("" : String) = "" ∨ ("x" : String) = "") ∧
      (createLink dbA "" "x" = (⟨400, requiredBody⟩, dbA) ∧
        updateLink dbA 5 "" "x" = (⟨400, requiredBody⟩, dbA))) :=
  ⟨Or.inl rfl, required_fields_400 dbA 5 "" "x" (Or.inl rfl)⟩

/-- C10: deleting an id touches no other record: any record with a
different id is in the store after the delete exactly when it was before,
whether the delete answers 200 or 404. -/
theorem delete_frame (db : DB) (i : Nat) (r : LinkRecord) (hne : r._id ≠ i) :
    (r ∈ (deleteLink db i).2.records ↔ r ∈ db.records) := by
  unfold deleteLink
  cases h : findById db i with
  | none => simp
  | some r0 => simp [List.mem_filter, bne_iff_ne, hne]

/-- Witness for C10: deleting id 2 of `dbB` keeps record 1. -/
theorem delete_frame_witness :
    ((⟨1, "https://t.me/alice", "Alice", 0, 0⟩ : LinkRecord)._id ≠ 2) ∧
      ((⟨1, "https://t.me/alice", "Alice", 0, 0⟩ : LinkRecord) ∈ (deleteLink dbB 2).2.records ↔
        (⟨1, "https://t.me/alice", "Alice", 0, 0⟩ : LinkRecord) ∈ dbB.records) :=
  ⟨by decide, delete_frame dbB 2 ⟨1, "https://t.me/alice", "Alice", 0, 0⟩ (by decide)⟩

end TelegramLinks
